import Mathlib

/-!
Shallow embedding of the LC-3 virtual machine emulator: the bit-manipulation
helpers from `src/util.rs`, the instruction decoder from `src/opcodes.rs`, the
image loader from `src/memory.rs` / `src/vm.rs`, and the execution engine from
`src/vm.rs`.  Machine words (`u16`) are `Nat` values below 2^16; Rust `i16`
values are `Int`; the `i16` bitwise operations act on the 16-bit
two's-complement patterns.  Rust code that can panic (out-of-bounds indexing,
the reserved-instruction panic, the unknown-trap-code panic, `unwrap` on
console reads) is modelled with `Except` / `Option` error results.  The console
collaborators are modelled by an input byte list and an output byte list.
-/

/-- Value of a 16-bit two's-complement pattern, in `[-32768, 32767]`; this also
models Rust's `as i16` cast of a `u16`. -/
def i16val (b : Nat) : Int :=
  if b % 65536 < 32768 then ((b % 65536 : Nat) : Int) else ((b % 65536 : Nat) : Int) - 65536

/-- The 16-bit two's-complement pattern of an `i16` value; models Rust's
`as u16` cast of an `i16`. -/
def i16pat (x : Int) : Nat :=
  (x % 65536).toNat

/-- Bitwise and on `i16` (Rust `&`), acting on the 16-bit patterns. -/
def i16and (x y : Int) : Int :=
  i16val (Nat.land (i16pat x) (i16pat y))

/-- Bitwise or on `i16` (Rust `|`), acting on the 16-bit patterns. -/
def i16or (x y : Int) : Int :=
  i16val (Nat.lor (i16pat x) (i16pat y))

/-- Bitwise complement on `i16` (Rust `!`), acting on the 16-bit pattern. -/
def i16not (x : Int) : Int :=
  i16val (Nat.xor (i16pat x) 65535)

/-- Wrapping addition on `i16` (Rust `i16::wrapping_add`). -/
def i16_wrapping_add (x y : Int) : Int :=
  i16val ((x + y) % 65536).toNat

/-- Rust `as usize` applied to an `i16`: non-negative values are unchanged,
negative values wrap modulo 2^64 (sign extension to 64 bits). -/
def i16_as_usize (x : Int) : Nat :=
  if 0 ≤ x then x.toNat else (18446744073709551616 + x).toNat

/-- From `src/util.rs`: `join_u8(hi, lo) = (hi << 8) | lo` on bytes. -/
def join_u8 (hi lo : Nat) : Nat :=
  (hi <<< 8) ||| lo

/-- From `src/util.rs`: `sign_ext_imm5`, sign extension of the low 5 bits. -/
def sign_ext_imm5 (instruction : Nat) : Int :=
  let imm5 : Int := ((instruction &&& 0b11111 : Nat) : Int)
  if i16and imm5 0b10000 ≠ 0 then i16or imm5 (i16not 0b11111) else i16and imm5 0b11111

/-- From `src/util.rs`: `sign_ext_imm6`, sign extension of the low 6 bits. -/
def sign_ext_imm6 (instruction : Nat) : Int :=
  let offset : Int := ((instruction &&& 0b111111 : Nat) : Int)
  if i16and offset 0b100000 ≠ 0 then i16or offset (i16not 0b111111) else i16and offset 0b111111

/-- From `src/util.rs`: `sign_ext_imm9`, sign extension of the low 9 bits. -/
def sign_ext_imm9 (instruction : Nat) : Int :=
  let offset : Int := ((instruction &&& 0b111111111 : Nat) : Int)
  if i16and offset 0b100000000 ≠ 0 then i16or offset (i16not 0b111111111)
  else i16and offset 0b111111111

/-- From `src/util.rs`: `sign_ext_imm11`, sign extension of the low 11 bits. -/
def sign_ext_imm11 (instruction : Nat) : Int :=
  let offset : Int := ((instruction &&& 0b11111111111 : Nat) : Int)
  if i16and offset 0b10000000000 ≠ 0 then i16or offset (i16not 0b11111111111)
  else i16and offset 0b11111111111

/-- Condition flags of the VM (`src/vm.rs`). -/
inductive ConditionFlag where
  | Pos
  | Neg
  | Zero
  | None
deriving DecidableEq, Repr

/-- Trap codes (`src/main.rs` / `src/vm.rs`). -/
inductive TrapCode where
  | Getc
  | Out
  | Puts
  | In
  | Putsp
  | Halt
deriving DecidableEq, Repr

/-- The second operand of ADD/AND (`src/opcodes.rs`): a register index or a
sign-extended immediate. -/
inductive Argument where
  | Reg (r : Nat)
  | Immediate (v : Int)
deriving DecidableEq, Repr

/-- Decoded instructions (`src/opcodes.rs`). -/
inductive Opcode where
  | ADD (dr sr1 : Nat) (sr2 : Argument)
  | AND (dr sr1 : Nat) (sr2 : Argument)
  | BR (n z p : Bool) (offset : Int)
  | JMP (base_r : Nat)
  | RET
  | JSR (offset : Int)
  | JSRR (base_r : Nat)
  | LD (dr : Nat) (offset : Int)
  | LDI (dr : Nat) (offset : Int)
  | LDR (dr base_r : Nat) (offset : Int)
  | LEA (dr : Nat) (offset : Int)
  | NOT (dr sr : Nat)
  | RTI
  | ST (sr : Nat) (offset : Int)
  | STI (sr : Nat) (offset : Int)
  | STR (sr base_r : Nat) (offset : Int)
  | TRAP (trap_code : TrapCode)
  | RESERVED
deriving DecidableEq, Repr

/-- Outcome of `Opcode::try_from`: a decoded instruction, the `Err(())` branch
for an unrecognized top nibble, or the `panic!` branch for an invalid trap
code byte. -/
inductive DecodeResult where
  | ok (op : Opcode)
  | unknownOpcode
  | unknownTrapCode
deriving DecidableEq, Repr

/-- From `src/opcodes.rs`: `impl TryFrom<u16> for Opcode`.  The top 4 bits
select the opcode family; the remaining bits are sliced per family. -/
def Opcode.try_from (instruction : Nat) : DecodeResult :=
  if instruction >>> 12 = 0b0001 then
    if instruction &&& (1 <<< 5) = 0 then
      .ok (.ADD ((instruction &&& 0b0000111000000000) >>> 9)
        ((instruction &&& 0b0000000111000000) >>> 6) (.Reg (instruction &&& 0b0000000000000111)))
    else
      .ok (.ADD ((instruction &&& 0b0000111000000000) >>> 9)
        ((instruction &&& 0b0000000111000000) >>> 6) (.Immediate (sign_ext_imm5 instruction)))
  else if instruction >>> 12 = 0b0101 then
    if instruction &&& (1 <<< 5) = 0 then
      .ok (.AND ((instruction &&& 0b0000111000000000) >>> 9)
        ((instruction &&& 0b0000000111000000) >>> 6) (.Reg (instruction &&& 0b0000000000000111)))
    else
      .ok (.AND ((instruction &&& 0b0000111000000000) >>> 9)
        ((instruction &&& 0b0000000111000000) >>> 6) (.Immediate (sign_ext_imm5 instruction)))
  else if instruction >>> 12 = 0b0000 then
    .ok (.BR (instruction &&& (1 <<< 11) != 0) (instruction &&& (1 <<< 10) != 0)
      (instruction &&& (1 <<< 9) != 0) (sign_ext_imm9 instruction))
  else if instruction >>> 12 = 0b1100 then
    if (instruction &&& 0b0000000111000000) >>> 6 = 0b111 then .ok .RET
    else .ok (.JMP ((instruction &&& 0b0000000111000000) >>> 6))
  else if instruction >>> 12 = 0b0100 then
    if instruction &&& (1 <<< 11) != 0 then .ok (.JSR (sign_ext_imm11 instruction))
    else .ok (.JSRR ((instruction &&& 0b111000000) >>> 6))
  else if instruction >>> 12 = 0b0010 then
    .ok (.LD ((instruction &&& 0b111000000000) >>> 9) (sign_ext_imm9 instruction))
  else if instruction >>> 12 = 0b1010 then
    .ok (.LDI ((instruction &&& 0b111000000000) >>> 9) (sign_ext_imm9 instruction))
  else if instruction >>> 12 = 0b0110 then
    .ok (.LDR ((instruction &&& 0b111000000000) >>> 9) ((instruction &&& 0b000111000000) >>> 6)
      (sign_ext_imm6 instruction))
  else if instruction >>> 12 = 0b1110 then
    .ok (.LEA ((instruction &&& 0b111000000000) >>> 9) (sign_ext_imm9 instruction))
  else if instruction >>> 12 = 0b1001 then
    .ok (.NOT ((instruction &&& 0b111000000000) >>> 9) ((instruction &&& 0b000111000000) >>> 6))
  else if instruction >>> 12 = 0b1000 then
    .ok .RTI
  else if instruction >>> 12 = 0b0011 then
    .ok (.ST ((instruction &&& 0b111000000000) >>> 9) (sign_ext_imm9 instruction))
  else if instruction >>> 12 = 0b1011 then
    .ok (.STI ((instruction &&& 0b111000000000) >>> 9) (sign_ext_imm9 instruction))
  else if instruction >>> 12 = 0b0111 then
    .ok (.STR ((instruction &&& 0b111000000000) >>> 9) ((instruction &&& 0b000111000000) >>> 6)
      (sign_ext_imm6 instruction))
  else if instruction >>> 12 = 0b1111 then
    if instruction &&& 0b11111111 = 0x20 then .ok (.TRAP .Getc)
    else if instruction &&& 0b11111111 = 0x21 then .ok (.TRAP .Out)
    else if instruction &&& 0b11111111 = 0x22 then .ok (.TRAP .Puts)
    else if instruction &&& 0b11111111 = 0x23 then .ok (.TRAP .In)
    else if instruction &&& 0b11111111 = 0x24 then .ok (.TRAP .Putsp)
    else if instruction &&& 0b11111111 = 0x25 then .ok (.TRAP .Halt)
    else .unknownTrapCode
  else if instruction >>> 12 = 0b1101 then
    .ok .RESERVED
  else
    .unknownOpcode

/-- Failure conditions of the execution engine (`VMError` in `src/vm.rs`,
together with the panics of `execute`, `handle_trap_code` and `try_from`). -/
inductive VMError where
  | PcOutOfBounds
  | MemReadOutOfBounds
  | FetchOutOfBounds
  | ReservedInstruction
  | InputExhausted
  | UnknownTrapCode
deriving DecidableEq, Repr

/-- Machine state (`struct VM` in `src/vm.rs`): running flag, the register
array (`[u16; 10]`, indices 8 and 9 being the PC and the condition flags), and
the 65536-word memory; plus the modelled console collaborators. -/
structure VM where
  running : Bool
  registers : Nat → Nat
  memory : Nat → Nat
  input : List Nat
  output : List Nat

/-- Pointwise function update, used for register and memory writes. -/
def upd (f : Nat → Nat) (i v : Nat) : Nat → Nat :=
  fun j => if j = i then v else f j

/-- Register read (`VM::reg`); the source checks `idx < 10` and panics
otherwise, a branch shown unreachable for decoded operands. -/
def VM.reg (s : VM) (idx : Nat) : Nat :=
  s.registers idx

/-- Register write (`VM::reg_set`). -/
def VM.reg_set (s : VM) (idx val : Nat) : VM :=
  { s with registers := upd s.registers idx val }

/-- Program counter (`VM::pc`): register slot 8. -/
def VM.pc (s : VM) : Nat :=
  s.reg 8

/-- Condition-flag read (`VM::cond_flag`): decodes register slot 9. -/
def VM.cond_flag (s : VM) : ConditionFlag :=
  let r := s.reg 9
  if r = 1 then .Pos else if r = 2 then .Zero else if r = 4 then .Neg else .None

/-- Condition-flag write (`VM::set_cond_flag`): encodes into register slot 9. -/
def VM.set_cond_flag (s : VM) (cond : ConditionFlag) : VM :=
  s.reg_set 9 (match cond with | .Pos => 1 | .Zero => 2 | .Neg => 4 | .None => 0)

/-- From `src/vm.rs`: `VM::set_flags`, classifying the signed result. -/
def VM.set_flags (s : VM) (res : Int) : VM :=
  s.set_cond_flag (if res < 0 then .Neg else if res = 0 then .Zero else .Pos)

/-- From `src/vm.rs`: `VM::pc_with_offset`, `(pc as u16).wrapping_add_signed(offset)`. -/
def VM.pc_with_offset (s : VM) (offset : Int) : Nat :=
  ((((s.pc % 65536 : Nat) : Int) + offset) % 65536).toNat

/-- From `src/vm.rs`: `VM::set_pc`; `u16::try_from` panics when the value
does not fit in 16 bits. -/
def VM.set_pc (s : VM) (new_pc : Nat) : Except VMError VM :=
  if new_pc < 65536 then .ok (s.reg_set 8 new_pc) else .error .PcOutOfBounds

/-- From `src/vm.rs`: `VM::handle_keyboard`; reads one byte from the console
input; a nonzero byte sets the status cell 0xFE00 to 0x8000 and the data cell
0xFE02 to the byte, a zero byte clears the status cell. -/
def VM.handle_keyboard (s : VM) : Except VMError VM :=
  match s.input with
  | [] => .error .InputExhausted
  | b :: rest =>
    if b ≠ 0 then
      .ok { s with memory := upd (upd s.memory 0xFE00 0x8000) 0xFE02 b, input := rest }
    else
      .ok { s with memory := upd s.memory 0xFE00 0, input := rest }

/-- From `src/vm.rs`: `VM::read`; a read of the keyboard status address 0xFE00
first polls the keyboard, then the memory cell is returned (with the
out-of-bounds check of `memory.get`). -/
def VM.read (s : VM) (position : Nat) : Except VMError (VM × Nat) :=
  let kb : Except VMError VM := if position = 0xFE00 then s.handle_keyboard else .ok s
  match kb with
  | .error e => .error e
  | .ok s1 => if position < 65536 then .ok (s1, s1.memory position) else .error .MemReadOutOfBounds

/-- From `src/vm.rs`: `VM::read_with_offset`. -/
def VM.read_with_offset (s : VM) (offset : Int) : Except VMError (VM × Nat) :=
  s.read (s.pc_with_offset offset)

/-- The PUTS loop of `handle_trap_code`: writes low bytes of successive cells
until a zero cell; the fuel counts the cells left before index 65536, where the
source's direct indexing would go out of bounds. -/
def putsLoop (mem : Nat → Nat) : Nat → Nat → List Nat → Except VMError (List Nat)
  | _, 0, _ => .error .MemReadOutOfBounds
  | i, fuel + 1, out =>
    if mem i = 0 then .ok out else putsLoop mem (i + 1) fuel (out ++ [mem i % 256])

/-- The PUTSP loop of `handle_trap_code`: writes the low byte, then the high
byte if nonzero, of successive cells until a zero cell. -/
def putspLoop (mem : Nat → Nat) : Nat → Nat → List Nat → Except VMError (List Nat)
  | _, 0, _ => .error .MemReadOutOfBounds
  | i, fuel + 1, out =>
    if mem i = 0 then .ok out
    else
      let ch1 := mem i &&& 0xFF
      let ch2 := mem i >>> 8
      putspLoop mem (i + 1) fuel (out ++ [ch1 % 256] ++ (if ch2 ≠ 0 then [ch2 % 256] else []))

/-- From `src/vm.rs`: `VM::handle_trap_code`.  Getc and In block for one input
byte (an `unwrap` panic when the stream is exhausted); Out/Puts/Putsp append to
the console output; Halt clears the running flag. -/
def VM.handle_trap_code (s : VM) (trap_code : TrapCode) : Except VMError VM :=
  match trap_code with
  | .Getc =>
    match s.input with
    | [] => .error .InputExhausted
    | b :: rest =>
      let s1 := VM.reg_set { s with input := rest } 0 b
      .ok (s1.set_flags (i16val (s1.reg 0)))
  | .Out => .ok { s with output := s.output ++ [s.reg 0 % 256] }
  | .Puts =>
    match putsLoop s.memory (s.reg 0) (65536 - s.reg 0) [] with
    | .error e => .error e
    | .ok out => .ok { s with output := s.output ++ out }
  | .In =>
    match s.input with
    | [] => .error .InputExhausted
    | b :: rest =>
      let s1 := VM.reg_set { s with input := rest } 0 b
      .ok (s1.set_flags (i16val (s1.reg 0)))
  | .Putsp =>
    match putspLoop s.memory (s.reg 0) (65536 - s.reg 0) [] with
    | .error e => .error e
    | .ok out => .ok { s with output := s.output ++ out }
  | .Halt => .ok { s with running := false }

/-- From `src/vm.rs`: `VM::execute`, the per-opcode state transition. -/
def VM.execute (s : VM) (opcode : Opcode) : Except VMError VM :=
  match opcode with
  | .ADD dr sr1 (.Reg sr2) =>
    let res := (s.reg sr1 + s.reg sr2) % 65536
    .ok ((s.reg_set dr res).set_flags (i16val res))
  | .ADD dr sr1 (.Immediate val) =>
    let res := (s.reg sr1 + i16pat val) % 65536
    .ok ((s.reg_set dr res).set_flags (i16val res))
  | .AND dr sr1 (.Reg sr2) =>
    let res := Nat.land (s.reg sr1) (s.reg sr2)
    .ok ((s.reg_set dr res).set_flags (i16val res))
  | .AND dr sr1 (.Immediate val) =>
    let res := i16pat (i16and (i16val (s.reg sr1)) val)
    .ok ((s.reg_set dr res).set_flags (i16val res))
  | .BR n z p offset =>
    let actual_flag := s.cond_flag
    if (n ∧ actual_flag = .Neg) ∨ (z ∧ actual_flag = .Zero) ∨ (p ∧ actual_flag = .Pos) then
      s.set_pc (s.pc_with_offset offset)
    else
      .ok s
  | .JMP base_r => s.set_pc (s.reg base_r)
  | .RET => s.set_pc (s.reg 7)
  | .JSR offset =>
    let s1 := s.reg_set 7 (s.pc % 65536)
    s1.set_pc (s1.pc_with_offset offset)
  | .JSRR base_r =>
    let s1 := s.reg_set 7 (s.pc % 65536)
    s1.set_pc (s1.reg base_r)
  | .LD dr offset =>
    match s.read_with_offset offset with
    | .error e => .error e
    | .ok (s1, res) => .ok ((s1.reg_set dr res).set_flags (i16val res))
  | .LDI dr offset =>
    match s.read_with_offset offset with
    | .error e => .error e
    | .ok (s1, dir) =>
      match s1.read dir with
      | .error e => .error e
      | .ok (s2, res) => .ok ((s2.reg_set dr res).set_flags (i16val res))
  | .LDR dr base_r offset =>
    let dir := i16_as_usize (i16_wrapping_add (i16val (s.reg base_r)) offset)
    match s.read dir with
    | .error e => .error e
    | .ok (s1, res) => .ok ((s1.reg_set dr res).set_flags (i16val res))
  | .LEA dr offset =>
    let dir := s.pc_with_offset offset % 65536
    .ok ((s.reg_set dr dir).set_flags (i16val dir))
  | .NOT dr sr =>
    let res := Nat.xor (s.reg sr) 65535
    .ok ((s.reg_set dr res).set_flags (i16val res))
  | .RTI => .ok s
  | .ST sr offset =>
    let dir := s.pc_with_offset offset
    if dir < 65536 then .ok { s with memory := upd s.memory dir (s.reg sr) }
    else .error .MemReadOutOfBounds
  | .STI sr offset =>
    match s.read_with_offset offset with
    | .error e => .error e
    | .ok (s1, dir) =>
      if dir < 65536 then .ok { s1 with memory := upd s1.memory dir (s1.reg sr) }
      else .error .MemReadOutOfBounds
  | .STR sr base_r offset =>
    let dir := i16_as_usize (i16_wrapping_add (i16val (s.reg base_r)) offset)
    if dir < 65536 then .ok { s with memory := upd s.memory dir (s.reg sr) }
    else .error .MemReadOutOfBounds
  | .TRAP trap_code =>
    let s1 := s.reg_set 7 (s.pc % 65536)
    s1.handle_trap_code trap_code
  | .RESERVED => .error .ReservedInstruction

/-- One iteration of the `VM::run` loop: fetch the word at the PC, advance the
PC by one, decode, and execute; an unrecognized opcode halts the machine, an
invalid trap code aborts it. -/
def VM.run_step (s : VM) : Except VMError VM :=
  if s.pc < 65536 then
    let instruction := s.memory s.pc
    match s.set_pc (s.pc_with_offset 1) with
    | .error e => .error e
    | .ok s1 =>
      match Opcode.try_from instruction with
      | .ok opcode => s1.execute opcode
      | .unknownOpcode => .ok { s1 with running := false }
      | .unknownTrapCode => .error .UnknownTrapCode
  else .error .FetchOutOfBounds

/-- The `VM::run` loop, with fuel bounding the number of iterations; the loop
exits normally once the running flag is cleared. -/
def VM.run (fuel : Nat) (s : VM) : Except VMError VM :=
  match fuel with
  | 0 => .ok s
  | fuel + 1 =>
    if s.running then
      match s.run_step with
      | .ok s1 => VM.run fuel s1
      | .error e => .error e
    else .ok s

/-- The loop of `VM::read_data_into_memory` / `Memory::load_bulk`: while the
target address is below 65535 and bytes remain, join the next big-endian byte
pair into a word; an odd trailing byte makes the source's `data[data_i + 1]`
indexing panic, modelled by `none`. -/
def loadLoop (data : List Nat) (mem : Nat → Nat) (mem_i data_i : Nat) : Option (Nat → Nat) :=
  if _h : mem_i < 65535 ∧ data_i < data.length then
    match data[data_i + 1]? with
    | some b2 => loadLoop data (upd mem mem_i (join_u8 (data.getD data_i 0) b2)) (mem_i + 1) (data_i + 2)
    | _ => none
  else
    some mem
termination_by data.length - data_i
decreasing_by simp_wf; omega

/-- From `src/vm.rs`: `VM::read_data_into_memory` (same logic as
`Memory::load_bulk` in `src/memory.rs`): the first two bytes are the
big-endian origin, subsequent byte pairs are words loaded from the origin on;
fewer than two bytes make the `data[0]` / `data[1]` indexing panic. -/
def read_data_into_memory (data : List Nat) (mem : Nat → Nat) : Option (Nat → Nat) :=
  match data with
  | b0 :: b1 :: _ => loadLoop data mem (join_u8 b0 b1) 2
  | _ => none

/-- Specification-side arithmetic sign extension: the value of the low `w`
bits of `v` read as two's complement. -/
def sextSpec (w v : Nat) : Int :=
  if v % 2 ^ w < 2 ^ (w - 1) then ((v % 2 ^ w : Nat) : Int) else ((v % 2 ^ w : Nat) : Int) - 2 ^ w

/-- The register-index operand fields carried by a decoded instruction
(dr, sr, sr1, sr2, base_r). -/
def Opcode.regFields : Opcode → List Nat
  | .ADD dr sr1 (.Reg sr2) => [dr, sr1, sr2]
  | .ADD dr sr1 (.Immediate _) => [dr, sr1]
  | .AND dr sr1 (.Reg sr2) => [dr, sr1, sr2]
  | .AND dr sr1 (.Immediate _) => [dr, sr1]
  | .BR _ _ _ _ => []
  | .JMP base_r => [base_r]
  | .RET => []
  | .JSR _ => []
  | .JSRR base_r => [base_r]
  | .LD dr _ => [dr]
  | .LDI dr _ => [dr]
  | .LDR dr base_r _ => [dr, base_r]
  | .LEA dr _ => [dr]
  | .NOT dr sr => [dr, sr]
  | .RTI => []
  | .ST sr _ => [sr]
  | .STI sr _ => [sr]
  | .STR sr base_r _ => [sr, base_r]
  | .TRAP _ => []
  | .RESERVED => []

/-- The flag-setting instructions: ADD, AND, LD, LDI, LDR, LEA, NOT and the
Getc/In traps. -/
def Opcode.setsFlags : Opcode → Bool
  | .ADD _ _ _ => true
  | .AND _ _ _ => true
  | .LD _ _ => true
  | .LDI _ _ => true
  | .LDR _ _ _ => true
  | .LEA _ _ => true
  | .NOT _ _ => true
  | .TRAP .Getc => true
  | .TRAP .In => true
  | _ => false

/-- The register that receives a flag-setting instruction's result (`dr`;
register 0 for the Getc/In traps). -/
def Opcode.resultReg : Opcode → Nat
  | .ADD dr _ _ => dr
  | .AND dr _ _ => dr
  | .LD dr _ => dr
  | .LDI dr _ => dr
  | .LDR dr _ _ => dr
  | .LEA dr _ => dr
  | .NOT dr _ => dr
  | _ => 0

/-- The condition-register encoding that `set_flags` stores for a signed
result: 4 (Negative), 2 (Zero) or 1 (Positive). -/
def flagBitsOf (x : Int) : Nat :=
  if x < 0 then 4 else if x = 0 then 2 else 1

/-- The all-zero register or memory bank. -/
def zeroFn : Nat → Nat :=
  fun _ => 0

/-- A running machine state with the given registers, memory and input. -/
def mkVM (regs mem : Nat → Nat) (inp : List Nat) : VM :=
  { running := true, registers := regs, memory := mem, input := inp, output := [] }

/-- Register projection of an execution result, for stating concrete runs. -/
def execReg (r : Except VMError VM) (i : Nat) : Option Nat :=
  match r with
  | .ok s => some (s.reg i)
  | .error _ => none

/-! ### Helper lemmas -/

theorem and_mask_eq_mod (x k : Nat) : x &&& (2 ^ k - 1) = x % 2 ^ k := by
  apply Nat.eq_of_testBit_eq
  intro i
  rw [Nat.testBit_and, Nat.testBit_mod_two_pow, Nat.testBit_two_pow_sub_one, Bool.and_comm]

theorem sign_ext_imm5_mod (inst : Nat) : sign_ext_imm5 inst = sign_ext_imm5 (inst % 32) := by
  have h1 : inst &&& 31 = inst % 32 := by simpa using and_mask_eq_mod inst 5
  have h2 : (inst % 32) &&& 31 = inst % 32 := by
    simpa [Nat.mod_mod_of_dvd] using and_mask_eq_mod (inst % 32) 5
  simp only [sign_ext_imm5]
  rw [h1, h2]

theorem sign_ext_imm6_mod (inst : Nat) : sign_ext_imm6 inst = sign_ext_imm6 (inst % 64) := by
  have h1 : inst &&& 63 = inst % 64 := by simpa using and_mask_eq_mod inst 6
  have h2 : (inst % 64) &&& 63 = inst % 64 := by
    simpa [Nat.mod_mod_of_dvd] using and_mask_eq_mod (inst % 64) 6
  simp only [sign_ext_imm6]
  rw [h1, h2]

theorem sign_ext_imm9_mod (inst : Nat) : sign_ext_imm9 inst = sign_ext_imm9 (inst % 512) := by
  have h1 : inst &&& 511 = inst % 512 := by simpa using and_mask_eq_mod inst 9
  have h2 : (inst % 512) &&& 511 = inst % 512 := by
    simpa [Nat.mod_mod_of_dvd] using and_mask_eq_mod (inst % 512) 9
  simp only [sign_ext_imm9]
  rw [h1, h2]

theorem sign_ext_imm11_mod (inst : Nat) : sign_ext_imm11 inst = sign_ext_imm11 (inst % 2048) := by
  have h1 : inst &&& 2047 = inst % 2048 := by simpa using and_mask_eq_mod inst 11
  have h2 : (inst % 2048) &&& 2047 = inst % 2048 := by
    simpa [Nat.mod_mod_of_dvd] using and_mask_eq_mod (inst % 2048) 11
  simp only [sign_ext_imm11]
  rw [h1, h2]

theorem sign_ext_imm5_small : ∀ v, v < 32 →
    sign_ext_imm5 v = sextSpec 5 v ∧ ((sign_ext_imm5 v).emod 32).toNat = v % 32 := by decide

theorem sign_ext_imm6_small : ∀ v, v < 64 →
    sign_ext_imm6 v = sextSpec 6 v ∧ ((sign_ext_imm6 v).emod 64).toNat = v % 64 := by decide

theorem sign_ext_imm9_small : ∀ v, v < 512 →
    sign_ext_imm9 v = sextSpec 9 v ∧ ((sign_ext_imm9 v).emod 512).toNat = v % 512 := by
  have h : ∀ a, a < 16 → ∀ b, b < 32 →
      sign_ext_imm9 (32 * a + b) = sextSpec 9 (32 * a + b) ∧
      ((sign_ext_imm9 (32 * a + b)).emod 512).toNat = (32 * a + b) % 512 := by decide
  intro v hv
  have h2 := h (v / 32) (by omega) (v % 32) (by omega)
  rwa [Nat.div_add_mod] at h2

theorem sign_ext_imm11_small : ∀ v, v < 2048 →
    sign_ext_imm11 v = sextSpec 11 v ∧ ((sign_ext_imm11 v).emod 2048).toNat = v % 2048 := by
  have h : ∀ a, a < 64 → ∀ b, b < 32 →
      sign_ext_imm11 (32 * a + b) = sextSpec 11 (32 * a + b) ∧
      ((sign_ext_imm11 (32 * a + b)).emod 2048).toNat = (32 * a + b) % 2048 := by decide
  intro v hv
  have h2 := h (v / 32) (by omega) (v % 32) (by omega)
  rwa [Nat.div_add_mod] at h2

theorem sextSpec_mod (w v : Nat) : sextSpec w (v % 2 ^ w) = sextSpec w v := by
  simp [sextSpec, Nat.mod_mod_of_dvd]

/-- C5: for every bit width w in {5, 6, 9, 11} and every input word, the
sign-extension helpers return the arithmetic two's-complement value of the low
w bits (`sextSpec`), are exact at the 5-bit boundary patterns -16 and +15, and
taking the low w bits of the extended value reproduces the original bit
pattern. -/
theorem sign_extend_correct : ∀ inst : Nat,
    (sign_ext_imm5 inst = sextSpec 5 inst ∧ ((sign_ext_imm5 inst).emod 32).toNat = inst % 32) ∧
    (sign_ext_imm6 inst = sextSpec 6 inst ∧ ((sign_ext_imm6 inst).emod 64).toNat = inst % 64) ∧
    (sign_ext_imm9 inst = sextSpec 9 inst ∧ ((sign_ext_imm9 inst).emod 512).toNat = inst % 512) ∧
    (sign_ext_imm11 inst = sextSpec 11 inst ∧
      ((sign_ext_imm11 inst).emod 2048).toNat = inst % 2048) ∧
    sign_ext_imm5 0b10000 = -16 ∧ sign_ext_imm5 0b01111 = 15 := by
  intro inst
  refine ⟨?_, ?_, ?_, ?_, by decide, by decide⟩
  · have h := sign_ext_imm5_small (inst % 32) (Nat.mod_lt _ (by norm_num))
    rw [sign_ext_imm5_mod inst]
    constructor
    · rw [h.1]
      simpa using sextSpec_mod 5 inst
    · rw [h.2]
      omega
  · have h := sign_ext_imm6_small (inst % 64) (Nat.mod_lt _ (by norm_num))
    rw [sign_ext_imm6_mod inst]
    constructor
    · rw [h.1]
      simpa using sextSpec_mod 6 inst
    · rw [h.2]
      omega
  · have h := sign_ext_imm9_small (inst % 512) (Nat.mod_lt _ (by norm_num))
    rw [sign_ext_imm9_mod inst]
    constructor
    · rw [h.1]
      simpa using sextSpec_mod 9 inst
    · rw [h.2]
      omega
  · have h := sign_ext_imm11_small (inst % 2048) (Nat.mod_lt _ (by norm_num))
    rw [sign_ext_imm11_mod inst]
    constructor
    · rw [h.1]
      simpa using sextSpec_mod 11 inst
    · rw [h.2]
      omega

/-! ### State helper lemmas -/

theorem upd_self (f : Nat → Nat) (i v : Nat) : upd f i v i = v := by
  simp [upd]

theorem upd_ne (f : Nat → Nat) (i v j : Nat) (h : j ≠ i) : upd f i v j = f j := by
  simp [upd, h]

theorem VM.reg_reg_set_self (s : VM) (i v : Nat) : (s.reg_set i v).reg i = v := by
  simp [VM.reg, VM.reg_set, upd]

theorem VM.reg_reg_set_ne (s : VM) (i v j : Nat) (h : j ≠ i) :
    (s.reg_set i v).reg j = s.reg j := by
  simp [VM.reg, VM.reg_set, upd, h]

theorem VM.set_flags_eq (s : VM) (res : Int) :
    s.set_flags res = s.reg_set 9 (flagBitsOf res) := by
  unfold VM.set_flags VM.set_cond_flag flagBitsOf
  split_ifs <;> rfl

theorem VM.reg_set_memory (s : VM) (i v : Nat) : (s.reg_set i v).memory = s.memory := rfl

theorem VM.reg_set_running (s : VM) (i v : Nat) : (s.reg_set i v).running = s.running := rfl

theorem VM.reg_set_input (s : VM) (i v : Nat) : (s.reg_set i v).input = s.input := rfl

theorem VM.reg_set_output (s : VM) (i v : Nat) : (s.reg_set i v).output = s.output := rfl

theorem VM.pc_with_offset_lt (s : VM) (offset : Int) : s.pc_with_offset offset < 65536 := by
  unfold VM.pc_with_offset
  omega

theorem VM.set_pc_ok (s : VM) (p : Nat) (h : p < 65536) : s.set_pc p = .ok (s.reg_set 8 p) := by
  simp [VM.set_pc, h]

/-! ### C3 -/

/-- C3, counterexample to the claim as stated: decoding trap code byte 0x26
does not take the decode-error (`Err`) branch of `try_from`; it takes the
panic branch for an unknown trap code. -/
theorem trap_code_0x26_panics :
    Opcode.try_from 0xF026 = DecodeResult.unknownTrapCode ∧
    Opcode.try_from 0xF026 ≠ DecodeResult.unknownOpcode := by decide

/-- C3 (amended): for every word with top nibble 0b1111, decoding yields a
TRAP instruction exactly when the low 8 bits are one of 0x20..0x25, mapped to
Getc/Out/Puts/In/Putsp/Halt respectively; any other low-8-bit value makes the
decoder panic with "Unknown trap code" (a fatal abort, not the `Err`
decode-error outcome). -/
theorem trap_decode_characterization : ∀ inst : Nat, inst >>> 12 = 0b1111 →
    ((∃ tc, Opcode.try_from inst = .ok (.TRAP tc)) ↔
      inst &&& 255 = 0x20 ∨ inst &&& 255 = 0x21 ∨ inst &&& 255 = 0x22 ∨
        inst &&& 255 = 0x23 ∨ inst &&& 255 = 0x24 ∨ inst &&& 255 = 0x25) ∧
    (inst &&& 255 = 0x20 → Opcode.try_from inst = .ok (.TRAP .Getc)) ∧
    (inst &&& 255 = 0x21 → Opcode.try_from inst = .ok (.TRAP .Out)) ∧
    (inst &&& 255 = 0x22 → Opcode.try_from inst = .ok (.TRAP .Puts)) ∧
    (inst &&& 255 = 0x23 → Opcode.try_from inst = .ok (.TRAP .In)) ∧
    (inst &&& 255 = 0x24 → Opcode.try_from inst = .ok (.TRAP .Putsp)) ∧
    (inst &&& 255 = 0x25 → Opcode.try_from inst = .ok (.TRAP .Halt)) ∧
    (¬(inst &&& 255 = 0x20 ∨ inst &&& 255 = 0x21 ∨ inst &&& 255 = 0x22 ∨
        inst &&& 255 = 0x23 ∨ inst &&& 255 = 0x24 ∨ inst &&& 255 = 0x25) →
      Opcode.try_from inst = .unknownTrapCode) := by
  intro inst h
  simp only [Opcode.try_from, h]
  norm_num
  split_ifs <;> simp_all

/-- C3 witness: the theorem applied at the concrete words 0xF025 and 0xF026. -/
theorem trap_decode_characterization_witness :
    Opcode.try_from 0xF025 = .ok (.TRAP .Halt) ∧
    Opcode.try_from 0xF026 = DecodeResult.unknownTrapCode := by
  constructor
  · exact (trap_decode_characterization 0xF025 (by decide)).2.2.2.2.2.2.1 (by decide)
  · exact (trap_decode_characterization 0xF026 (by decide)).2.2.2.2.2.2.2 (by decide)

/-! ### C9 -/

/-- C9: every word with top nibble 0b1101 decodes successfully to the RESERVED
sentinel; executing RESERVED is the fatal reserved-instruction panic; and a
running machine whose next fetched word has top nibble 0b1101 aborts the
fetch-decode-execute loop with that condition, whatever fuel remains. -/
theorem reserved_decode_and_fatal : ∀ (w : Nat) (s : VM) (fuel : Nat),
    (w >>> 12 = 0b1101 → Opcode.try_from w = .ok .RESERVED) ∧
    s.execute .RESERVED = .error .ReservedInstruction ∧
    (s.running = true → s.pc < 65536 → s.memory s.pc >>> 12 = 0b1101 →
      VM.run (fuel + 1) s = .error .ReservedInstruction) := by
  intro w s fuel
  refine ⟨?_, rfl, ?_⟩
  · intro h
    simp only [Opcode.try_from, h]
    norm_num
  · intro hrun hpc hmem
    have hdec : Opcode.try_from (s.memory s.pc) = .ok .RESERVED := by
      simp only [Opcode.try_from, hmem]
      norm_num
    have hlt := VM.pc_with_offset_lt s 1
    have hstep : s.run_step = .error .ReservedInstruction := by
      simp only [VM.run_step]
      rw [if_pos hpc, VM.set_pc_ok _ _ hlt, hdec]
      rfl
    unfold VM.run
    rw [if_pos hrun, hstep]

/-- C9 witness: a machine at PC 0x3000 whose fetched word is 0xD000 aborts
with the reserved-instruction condition, and 0xD027 decodes to RESERVED. -/
theorem reserved_decode_and_fatal_witness :
    VM.run 1 (mkVM (upd zeroFn 8 0x3000) (upd zeroFn 0x3000 0xD000) []) =
      .error .ReservedInstruction ∧
    Opcode.try_from 0xD027 = .ok .RESERVED := by
  constructor
  · exact (reserved_decode_and_fatal 0
      (mkVM (upd zeroFn 8 0x3000) (upd zeroFn 0x3000 0xD000) []) 0).2.2 rfl
      (by decide) (by decide)
  · exact (reserved_decode_and_fatal 0xD027 (mkVM zeroFn zeroFn []) 0).1 (by decide)

/-! ### C10 -/

set_option maxHeartbeats 1600000 in
/-- C10: every register-index operand field of a successfully decoded
instruction is at most 7; consequently it is distinct from the PC slot 8 and
the condition-flag slot 9 and lies inside the 10-entry register array. -/
theorem decoded_register_fields_in_bounds :
    ∀ (inst : Nat) (op : Opcode), Opcode.try_from inst = .ok op →
      ∀ r ∈ op.regFields, r ≤ 7 ∧ r ≠ 8 ∧ r ≠ 9 ∧ r < 10 := by
  intro inst op hdec r hr
  suffices h : r ≤ 7 by exact ⟨h, by omega, by omega, by omega⟩
  have h9 : ∀ x : Nat, (x &&& 3584) >>> 9 ≤ 7 := by
    intro x
    have h1 : x &&& 3584 ≤ 3584 := Nat.and_le_right
    calc (x &&& 3584) >>> 9 = (x &&& 3584) / 2 ^ 9 := Nat.shiftRight_eq_div_pow _ _
      _ ≤ 3584 / 2 ^ 9 := Nat.div_le_div_right h1
      _ = 7 := by norm_num
  have h6 : ∀ x : Nat, (x &&& 448) >>> 6 ≤ 7 := by
    intro x
    have h1 : x &&& 448 ≤ 448 := Nat.and_le_right
    calc (x &&& 448) >>> 6 = (x &&& 448) / 2 ^ 6 := Nat.shiftRight_eq_div_pow _ _
      _ ≤ 448 / 2 ^ 6 := Nat.div_le_div_right h1
      _ = 7 := by norm_num
  have h0 : ∀ x : Nat, x &&& 7 ≤ 7 := fun _ => Nat.and_le_right
  by_cases hc1 : inst >>> 12 = 1
  · simp only [Opcode.try_from, hc1] at hdec
    norm_num at hdec
    split_ifs at hdec <;> cases hdec <;>
      (simp only [Opcode.regFields] at hr
       fin_cases hr <;> first | exact h9 _ | exact h6 _ | exact h0 _)
  by_cases hc5 : inst >>> 12 = 5
  · simp only [Opcode.try_from, hc5] at hdec
    norm_num at hdec
    split_ifs at hdec <;> cases hdec <;>
      (simp only [Opcode.regFields] at hr
       fin_cases hr <;> first | exact h9 _ | exact h6 _ | exact h0 _)
  by_cases hc0 : inst >>> 12 = 0
  · simp only [Opcode.try_from, hc0] at hdec
    norm_num at hdec
    cases hdec
    simp only [Opcode.regFields] at hr
    fin_cases hr <;> first | exact h9 _ | exact h6 _ | exact h0 _
  by_cases hc12 : inst >>> 12 = 12
  · simp only [Opcode.try_from, hc12] at hdec
    norm_num at hdec
    split_ifs at hdec <;> cases hdec <;>
      (simp only [Opcode.regFields] at hr
       fin_cases hr <;> first | exact h9 _ | exact h6 _ | exact h0 _)
  by_cases hc4 : inst >>> 12 = 4
  · simp only [Opcode.try_from, hc4] at hdec
    norm_num at hdec
    split_ifs at hdec <;> cases hdec <;>
      (simp only [Opcode.regFields] at hr
       fin_cases hr <;> first | exact h9 _ | exact h6 _ | exact h0 _)
  by_cases hc2 : inst >>> 12 = 2
  · simp only [Opcode.try_from, hc2] at hdec
    norm_num at hdec
    cases hdec
    simp only [Opcode.regFields] at hr
    fin_cases hr <;> first | exact h9 _ | exact h6 _ | exact h0 _
  by_cases hc10 : inst >>> 12 = 10
  · simp only [Opcode.try_from, hc10] at hdec
    norm_num at hdec
    cases hdec
    simp only [Opcode.regFields] at hr
    fin_cases hr <;> first | exact h9 _ | exact h6 _ | exact h0 _
  by_cases hc6 : inst >>> 12 = 6
  · simp only [Opcode.try_from, hc6] at hdec
    norm_num at hdec
    cases hdec
    simp only [Opcode.regFields] at hr
    fin_cases hr <;> first | exact h9 _ | exact h6 _ | exact h0 _
  by_cases hc14 : inst >>> 12 = 14
  · simp only [Opcode.try_from, hc14] at hdec
    norm_num at hdec
    cases hdec
    simp only [Opcode.regFields] at hr
    fin_cases hr <;> first | exact h9 _ | exact h6 _ | exact h0 _
  by_cases hc9 : inst >>> 12 = 9
  · simp only [Opcode.try_from, hc9] at hdec
    norm_num at hdec
    cases hdec
    simp only [Opcode.regFields] at hr
    fin_cases hr <;> first | exact h9 _ | exact h6 _ | exact h0 _
  by_cases hc8 : inst >>> 12 = 8
  · simp only [Opcode.try_from, hc8] at hdec
    norm_num at hdec
    cases hdec
    simp only [Opcode.regFields] at hr
    fin_cases hr <;> first | exact h9 _ | exact h6 _ | exact h0 _
  by_cases hc3 : inst >>> 12 = 3
  · simp only [Opcode.try_from, hc3] at hdec
    norm_num at hdec
    cases hdec
    simp only [Opcode.regFields] at hr
    fin_cases hr <;> first | exact h9 _ | exact h6 _ | exact h0 _
  by_cases hc11 : inst >>> 12 = 11
  · simp only [Opcode.try_from, hc11] at hdec
    norm_num at hdec
    cases hdec
    simp only [Opcode.regFields] at hr
    fin_cases hr <;> first | exact h9 _ | exact h6 _ | exact h0 _
  by_cases hc7 : inst >>> 12 = 7
  · simp only [Opcode.try_from, hc7] at hdec
    norm_num at hdec
    cases hdec
    simp only [Opcode.regFields] at hr
    fin_cases hr <;> first | exact h9 _ | exact h6 _ | exact h0 _
  by_cases hc15 : inst >>> 12 = 15
  · simp only [Opcode.try_from, hc15] at hdec
    norm_num at hdec
    split_ifs at hdec <;> cases hdec <;>
      (simp only [Opcode.regFields] at hr
       fin_cases hr <;> first | exact h9 _ | exact h6 _ | exact h0 _)
  by_cases hc13 : inst >>> 12 = 13
  · simp only [Opcode.try_from, hc13] at hdec
    norm_num at hdec
    cases hdec
    simp only [Opcode.regFields] at hr
    fin_cases hr <;> first | exact h9 _ | exact h6 _ | exact h0 _
  unfold Opcode.try_from at hdec
  rw [if_neg hc1, if_neg hc5, if_neg hc0, if_neg hc12, if_neg hc4, if_neg hc2, if_neg hc10,
    if_neg hc6, if_neg hc14, if_neg hc9, if_neg hc8, if_neg hc3, if_neg hc11, if_neg hc7,
    if_neg hc15, if_neg hc13] at hdec
  exact DecodeResult.noConfusion hdec

/-- C10 witness: the theorem applied to the decode of the word 0x14C1
(ADD with dr=2, sr1=3, sr2=register 1) at the field dr=2. -/
theorem decoded_register_fields_in_bounds_witness :
    ((2 : Nat) ≤ 7 ∧ (2 : Nat) ≠ 8 ∧ (2 : Nat) ≠ 9 ∧ (2 : Nat) < 10) ∧
    Opcode.try_from 0x14C1 = .ok (.ADD 2 3 (.Reg 1)) := by
  constructor
  · exact decoded_register_fields_in_bounds 0x14C1 (.ADD 2 3 (.Reg 1)) (by decide) 2
      (by simp [Opcode.regFields])
  · decide

/-! ### More helper lemmas -/

theorem i16pat_lt (x : Int) : i16pat x < 65536 := by
  unfold i16pat
  omega

theorem i16pat_i16val (b : Nat) : i16pat (i16val b) = b % 65536 := by
  unfold i16pat i16val
  split_ifs <;> omega

theorem i16pat_i16and (x y : Int) : i16pat (i16and x y) = Nat.land (i16pat x) (i16pat y) := by
  unfold i16and
  rw [i16pat_i16val]
  have h1 : Nat.land (i16pat x) (i16pat y) ≤ i16pat x := Nat.and_le_left
  have h2 := i16pat_lt x
  omega

theorem i16pat_i16and_i16val (a : Nat) (v : Int) :
    i16pat (i16and (i16val a) v) = Nat.land (a % 65536) ((v % 65536).toNat) := by
  rw [i16pat_i16and, i16pat_i16val]
  rfl

theorem VM.pc_with_offset_reg_set (s : VM) (i v : Nat) (offset : Int) (h : (8 : Nat) ≠ i) :
    (s.reg_set i v).pc_with_offset offset = s.pc_with_offset offset := by
  unfold VM.pc_with_offset VM.pc
  rw [VM.reg_reg_set_ne _ _ _ _ h]

/-! ### C1 -/

/-- C1, counterexample to the claim as stated: from PC = 0x3005, JSR with
offset 15 sets the PC to 0x3014 = 0x3005 + 15, not to 0x301A as the claim's
concrete example asserts. -/
theorem jsr_example_pc_is_0x3014 :
    execReg ((mkVM (upd zeroFn 8 0x3005) zeroFn []).execute (.JSR 15)) 8 = some 0x3014 ∧
    execReg ((mkVM (upd zeroFn 8 0x3005) zeroFn []).execute (.JSR 15)) 8 ≠ some 0x301A ∧
    execReg ((mkVM (upd zeroFn 8 0x3005) zeroFn []).execute (.JSR 15)) 7 = some 0x3005 := by
  refine ⟨by decide, by decide, by decide⟩

/-- C1 (amended): JSR first stores the current (already advanced past the JSR
word) program counter into register 7 and then sets the PC to PC plus the
offset with 16-bit wraparound; JSRR first stores the current program counter
into register 7 and then sets the PC to the value of registers[base_r] as
read after that store.  The concrete example is amended: from PC = 0x3005,
JSR with offset 15 gives PC = 0x3014 (not 0x301A). -/
theorem jsr_jsrr_save_link_then_jump : ∀ (s : VM) (offset : Int) (base_r : Nat),
    (∃ s1, s.execute (.JSR offset) = .ok s1 ∧
      s1.reg 7 = s.pc % 65536 ∧
      s1.reg 8 = ((((s.pc % 65536 : Nat) : Int) + offset) % 65536).toNat ∧
      (∀ i, i ≠ 7 → i ≠ 8 → s1.reg i = s.reg i) ∧
      s1.memory = s.memory ∧ s1.running = s.running) ∧
    ((if base_r = 7 then s.pc % 65536 else s.reg base_r) < 65536 →
      ∃ s2, s.execute (.JSRR base_r) = .ok s2 ∧
        s2.reg 7 = s.pc % 65536 ∧
        s2.reg 8 = (if base_r = 7 then s.pc % 65536 else s.reg base_r) ∧
        (∀ i, i ≠ 7 → i ≠ 8 → s2.reg i = s.reg i) ∧
        s2.memory = s.memory ∧ s2.running = s.running) := by
  intro s offset base_r
  constructor
  · have hlt := VM.pc_with_offset_lt (s.reg_set 7 (s.pc % 65536)) offset
    have hexec : s.execute (.JSR offset) =
        .ok ((s.reg_set 7 (s.pc % 65536)).reg_set 8
          ((s.reg_set 7 (s.pc % 65536)).pc_with_offset offset)) := by
      simp only [VM.execute]
      rw [VM.set_pc_ok _ _ hlt]
    refine ⟨_, hexec, ?_, ?_, ?_, rfl, rfl⟩
    · rw [VM.reg_reg_set_ne _ _ _ _ (by omega), VM.reg_reg_set_self]
    · rw [VM.reg_reg_set_self, VM.pc_with_offset_reg_set _ _ _ _ (by omega)]
      rfl
    · intro i h7 h8
      rw [VM.reg_reg_set_ne _ _ _ _ h8, VM.reg_reg_set_ne _ _ _ _ h7]
  · intro hlt
    have hval : (s.reg_set 7 (s.pc % 65536)).reg base_r =
        (if base_r = 7 then s.pc % 65536 else s.reg base_r) := by
      by_cases hb : base_r = 7
      · rw [if_pos hb, hb, VM.reg_reg_set_self]
      · rw [if_neg hb, VM.reg_reg_set_ne _ _ _ _ hb]
    have hexec : s.execute (.JSRR base_r) =
        .ok ((s.reg_set 7 (s.pc % 65536)).reg_set 8
          ((s.reg_set 7 (s.pc % 65536)).reg base_r)) := by
      simp only [VM.execute]
      rw [VM.set_pc_ok]
      rw [hval]
      exact hlt
    refine ⟨_, hexec, ?_, ?_, ?_, rfl, rfl⟩
    · rw [VM.reg_reg_set_ne _ _ _ _ (by omega), VM.reg_reg_set_self]
    · rw [VM.reg_reg_set_self, hval]
    · intro i h7 h8
      rw [VM.reg_reg_set_ne _ _ _ _ h8, VM.reg_reg_set_ne _ _ _ _ h7]

/-- C1 witness: from PC = 0x3005, JSR with offset 15 leaves register 7 holding
0x3005 and the PC holding 0x3014 = 0x3005 + 15; JSRR with base register 2
holding 0x4000 leaves register 7 holding 0x3005 and the PC holding 0x4000. -/
theorem jsr_jsrr_save_link_then_jump_witness :
    (∃ s1, (mkVM (upd (upd zeroFn 8 0x3005) 2 0x4000) zeroFn []).execute (.JSR 15) = .ok s1 ∧
      s1.reg 7 = 0x3005 ∧ s1.reg 8 = 0x3014) ∧
    (∃ s2, (mkVM (upd (upd zeroFn 8 0x3005) 2 0x4000) zeroFn []).execute (.JSRR 2) = .ok s2 ∧
      s2.reg 7 = 0x3005 ∧ s2.reg 8 = 0x4000) := by
  constructor
  · obtain ⟨⟨s1, hexec, h7, h8, -⟩, -⟩ :=
      jsr_jsrr_save_link_then_jump (mkVM (upd (upd zeroFn 8 0x3005) 2 0x4000) zeroFn []) 15 2
    refine ⟨s1, hexec, ?_, ?_⟩
    · rw [h7]; decide
    · rw [h8]; decide
  · obtain ⟨-, h⟩ :=
      jsr_jsrr_save_link_then_jump (mkVM (upd (upd zeroFn 8 0x3005) 2 0x4000) zeroFn []) 15 2
    obtain ⟨s2, hexec, h7, h8, -⟩ := h (by decide)
    refine ⟨s2, hexec, ?_, ?_⟩
    · rw [h7]; decide
    · rw [h8]; decide

/-! ### C2 -/

/-- C2: ADD and AND, in register and immediate form, always succeed and
produce a 16-bit result: ADD computes the sum modulo 65536, AND computes the
bitwise and (of the 16-bit patterns in the immediate form). -/
theorem add_and_wraparound : ∀ (s : VM) (dr sr1 sr2 : Nat) (v : Int), dr ≤ 7 →
    (∃ s1, s.execute (.ADD dr sr1 (.Reg sr2)) = .ok s1 ∧
      s1.reg dr = (s.reg sr1 + s.reg sr2) % 65536 ∧ s1.reg dr < 65536) ∧
    (∃ s1, s.execute (.ADD dr sr1 (.Immediate v)) = .ok s1 ∧
      s1.reg dr = (s.reg sr1 + (v.emod 65536).toNat) % 65536 ∧ s1.reg dr < 65536) ∧
    (∃ s1, s.execute (.AND dr sr1 (.Reg sr2)) = .ok s1 ∧
      s1.reg dr = Nat.land (s.reg sr1) (s.reg sr2)) ∧
    (∃ s1, s.execute (.AND dr sr1 (.Immediate v)) = .ok s1 ∧
      s1.reg dr = Nat.land (s.reg sr1 % 65536) ((v % 65536).toNat) ∧
      s1.reg dr < 65536) := by
  intro s dr sr1 sr2 v hdr
  have hdr9 : dr ≠ 9 := by omega
  refine ⟨⟨_, rfl, ?_, ?_⟩, ⟨_, rfl, ?_, ?_⟩, ⟨_, rfl, ?_⟩, ⟨_, rfl, ?_, ?_⟩⟩
  · rw [VM.set_flags_eq, VM.reg_reg_set_ne _ _ _ _ hdr9, VM.reg_reg_set_self]
  · rw [VM.set_flags_eq, VM.reg_reg_set_ne _ _ _ _ hdr9, VM.reg_reg_set_self]
    exact Nat.mod_lt _ (by norm_num)
  · rw [VM.set_flags_eq, VM.reg_reg_set_ne _ _ _ _ hdr9, VM.reg_reg_set_self]
    rfl
  · rw [VM.set_flags_eq, VM.reg_reg_set_ne _ _ _ _ hdr9, VM.reg_reg_set_self]
    exact Nat.mod_lt _ (by norm_num)
  · rw [VM.set_flags_eq, VM.reg_reg_set_ne _ _ _ _ hdr9, VM.reg_reg_set_self]
  · rw [VM.set_flags_eq, VM.reg_reg_set_ne _ _ _ _ hdr9, VM.reg_reg_set_self]
    exact i16pat_i16and_i16val _ _
  · rw [VM.set_flags_eq, VM.reg_reg_set_ne _ _ _ _ hdr9, VM.reg_reg_set_self]
    exact i16pat_lt _

/-- C2 witness: ADD with sr1 holding 65535 and sr2 holding 2 stores 1 into
dr. -/
theorem add_and_wraparound_witness :
    ∃ s1, (mkVM (upd (upd zeroFn 1 65535) 2 2) zeroFn []).execute (.ADD 0 1 (.Reg 2)) = .ok s1 ∧
      s1.reg 0 = 1 := by
  obtain ⟨⟨s1, hexec, hreg, -⟩, -, -, -⟩ :=
    add_and_wraparound (mkVM (upd (upd zeroFn 1 65535) 2 2) zeroFn []) 0 1 2 0 (by omega)
  refine ⟨s1, hexec, ?_⟩
  rw [hreg]
  decide

/-! ### C6 -/

/-- C6: a BR instruction is taken exactly when one of the asserted n/z/p bits
matches the active condition flag; when taken, the PC becomes PC plus the
offset with 16-bit wraparound and nothing else changes; when not taken the
machine state is entirely unchanged. -/
theorem br_taken_iff_flag_match : ∀ (s : VM) (n z p : Bool) (offset : Int),
    (¬((n = true ∧ s.cond_flag = .Neg) ∨ (z = true ∧ s.cond_flag = .Zero) ∨
        (p = true ∧ s.cond_flag = .Pos)) →
      s.execute (.BR n z p offset) = .ok s) ∧
    (((n = true ∧ s.cond_flag = .Neg) ∨ (z = true ∧ s.cond_flag = .Zero) ∨
        (p = true ∧ s.cond_flag = .Pos)) →
      ∃ s1, s.execute (.BR n z p offset) = .ok s1 ∧
        s1.reg 8 = ((((s.pc % 65536 : Nat) : Int) + offset) % 65536).toNat ∧
        (∀ i, i ≠ 8 → s1.reg i = s.reg i) ∧
        s1.memory = s.memory ∧ s1.input = s.input ∧ s1.output = s.output ∧
        s1.running = s.running) := by
  intro s n z p offset
  constructor
  · intro hnot
    simp only [VM.execute]
    rw [if_neg hnot]
  · intro htaken
    have hlt := VM.pc_with_offset_lt s offset
    have hexec : s.execute (.BR n z p offset) = .ok (s.reg_set 8 (s.pc_with_offset offset)) := by
      simp only [VM.execute]
      rw [if_pos htaken, VM.set_pc_ok _ _ hlt]
    refine ⟨_, hexec, ?_, ?_, rfl, rfl, rfl, rfl⟩
    · rw [VM.reg_reg_set_self]
      rfl
    · intro i hi
      exact VM.reg_reg_set_ne _ _ _ _ hi

/-- C6 witness: with flag Positive, a taken BR wraps the PC at both ends
(PC 0xFFFF with offset 2 gives 0x0001, PC 0 with offset -1 gives 0xFFFF), and
the same BR with flag Negative leaves the state unchanged. -/
theorem br_taken_iff_flag_match_witness :
    (∃ s1, (mkVM (upd (upd zeroFn 8 0xFFFF) 9 1) zeroFn []).execute
        (.BR false false true 2) = .ok s1 ∧ s1.reg 8 = 1) ∧
    (∃ s2, (mkVM (upd (upd zeroFn 8 0) 9 1) zeroFn []).execute
        (.BR false false true (-1)) = .ok s2 ∧ s2.reg 8 = 0xFFFF) ∧
    (mkVM (upd (upd zeroFn 8 0x3005) 9 4) zeroFn []).execute (.BR false false true 15) =
      .ok (mkVM (upd (upd zeroFn 8 0x3005) 9 4) zeroFn []) := by
  refine ⟨?_, ?_, ?_⟩
  · obtain ⟨s1, hexec, h8, -⟩ :=
      (br_taken_iff_flag_match (mkVM (upd (upd zeroFn 8 0xFFFF) 9 1) zeroFn [])
        false false true 2).2 (by right; right; exact ⟨rfl, by decide⟩)
    refine ⟨s1, hexec, ?_⟩
    rw [h8]
    decide
  · obtain ⟨s2, hexec, h8, -⟩ :=
      (br_taken_iff_flag_match (mkVM (upd (upd zeroFn 8 0) 9 1) zeroFn [])
        false false true (-1)).2 (by right; right; exact ⟨rfl, by decide⟩)
    refine ⟨s2, hexec, ?_⟩
    rw [h8]
    decide
  · exact (br_taken_iff_flag_match (mkVM (upd (upd zeroFn 8 0x3005) 9 4) zeroFn [])
      false false true 15).1 (by decide)

/-! ### C7 -/

/-- C7: reading the keyboard-status address 0xFE00 with a zero (unavailable)
input byte yields 0 and clears the status cell; with a nonzero byte b the
status cell becomes 0x8000 and the data cell 0xFE02 becomes b; reading any
other in-bounds address leaves the machine state untouched. -/
theorem keyboard_status_read : ∀ (s : VM) (b : Nat) (rest : List Nat) (position : Nat),
    (s.input = 0 :: rest →
      ∃ s1, s.read 0xFE00 = .ok (s1, 0) ∧ s1.memory 0xFE00 = 0 ∧
        (∀ a, a ≠ 0xFE00 → s1.memory a = s.memory a) ∧
        s1.registers = s.registers ∧ s1.input = rest) ∧
    (s.input = b :: rest → b ≠ 0 →
      ∃ s1, s.read 0xFE00 = .ok (s1, 0x8000) ∧ s1.memory 0xFE00 = 0x8000 ∧
        s1.memory 0xFE02 = b ∧
        (∀ a, a ≠ 0xFE00 → a ≠ 0xFE02 → s1.memory a = s.memory a) ∧
        s1.registers = s.registers ∧ s1.input = rest) ∧
    (position ≠ 0xFE00 → position < 65536 →
      s.read position = .ok (s, s.memory position)) := by
  intro s b rest position
  refine ⟨?_, ?_, ?_⟩
  · intro hin
    have hkb : s.handle_keyboard =
        .ok { s with memory := upd s.memory 0xFE00 0, input := rest } := by
      simp only [VM.handle_keyboard, hin]
      norm_num
    have hread : s.read 0xFE00 =
        .ok ({ s with memory := upd s.memory 0xFE00 0, input := rest },
          upd s.memory 0xFE00 0 0xFE00) := by
      simp only [VM.read, hkb]
      norm_num
    rw [upd_self] at hread
    refine ⟨_, hread, ?_, ?_, rfl, rfl⟩
    · show upd s.memory 0xFE00 0 0xFE00 = 0
      exact upd_self _ _ _
    · intro a ha
      show upd s.memory 0xFE00 0 a = s.memory a
      exact upd_ne _ _ _ _ ha
  · intro hin hb
    have hkb : s.handle_keyboard =
        .ok { s with memory := upd (upd s.memory 0xFE00 0x8000) 0xFE02 b, input := rest } := by
      simp only [VM.handle_keyboard, hin]
      rw [if_pos hb]
    have hval : upd (upd s.memory 0xFE00 0x8000) 0xFE02 b 0xFE00 = 0x8000 := by
      rw [upd_ne _ _ _ _ (by omega), upd_self]
    have hread : s.read 0xFE00 =
        .ok ({ s with memory := upd (upd s.memory 0xFE00 0x8000) 0xFE02 b, input := rest },
          upd (upd s.memory 0xFE00 0x8000) 0xFE02 b 0xFE00) := by
      simp only [VM.read, hkb]
      norm_num
    rw [hval] at hread
    refine ⟨_, hread, hval, ?_, ?_, rfl, rfl⟩
    · show upd (upd s.memory 0xFE00 0x8000) 0xFE02 b 0xFE02 = b
      exact upd_self _ _ _
    · intro a ha0 ha2
      show upd (upd s.memory 0xFE00 0x8000) 0xFE02 b a = s.memory a
      rw [upd_ne _ _ _ _ ha2, upd_ne _ _ _ _ ha0]
  · intro hpos hlt
    simp only [VM.read]
    rw [if_neg hpos]
    simp only []
    rw [if_pos hlt]

/-- C7 witness: the theorem applied at a machine with pending input byte 0
(read yields 0), pending byte 65 (status 0x8000, data 65), and at the plain
address 0x3000. -/
theorem keyboard_status_read_witness :
    (∃ s1, (mkVM zeroFn zeroFn [0]).read 0xFE00 = .ok (s1, 0) ∧ s1.memory 0xFE00 = 0) ∧
    (∃ s2, (mkVM zeroFn zeroFn [65]).read 0xFE00 = .ok (s2, 0x8000) ∧
      s2.memory 0xFE00 = 0x8000 ∧ s2.memory 0xFE02 = 65) ∧
    (mkVM zeroFn zeroFn []).read 0x3000 =
      .ok (mkVM zeroFn zeroFn [], (mkVM zeroFn zeroFn []).memory 0x3000) := by
  refine ⟨?_, ?_, ?_⟩
  · obtain ⟨h1, -, -⟩ := keyboard_status_read (mkVM zeroFn zeroFn [0]) 0 [] 0
    obtain ⟨s1, hread, hmem, -⟩ := h1 rfl
    exact ⟨s1, hread, hmem⟩
  · obtain ⟨-, h2, -⟩ := keyboard_status_read (mkVM zeroFn zeroFn [65]) 65 [] 0
    obtain ⟨s2, hread, hm0, hm2, -⟩ := h2 rfl (by omega)
    exact ⟨s2, hread, hm0, hm2⟩
  · exact (keyboard_status_read (mkVM zeroFn zeroFn []) 0 [] 0x3000).2.2 (by omega) (by omega)

/-! ### C4 -/

theorem VM_flags_core (X : VM) (dr res : Nat) (h9 : dr ≠ 9) :
    (((X.reg_set dr res).set_flags (i16val res)).reg 9 =
      flagBitsOf (i16val (((X.reg_set dr res).set_flags (i16val res)).reg dr))) ∧
    (((X.reg_set dr res).set_flags (i16val res)).reg 9 = 1 ∨
      ((X.reg_set dr res).set_flags (i16val res)).reg 9 = 2 ∨
      ((X.reg_set dr res).set_flags (i16val res)).reg 9 = 4) := by
  rw [VM.set_flags_eq]
  constructor
  · rw [VM.reg_reg_set_self, VM.reg_reg_set_ne _ _ _ _ h9, VM.reg_reg_set_self]
  · rw [VM.reg_reg_set_self]
    unfold flagBitsOf
    split_ifs <;> simp

theorem VM_flags_core0 (X : VM) :
    ((X.set_flags (i16val (X.reg 0))).reg 9 =
      flagBitsOf (i16val ((X.set_flags (i16val (X.reg 0))).reg 0))) ∧
    ((X.set_flags (i16val (X.reg 0))).reg 9 = 1 ∨
      (X.set_flags (i16val (X.reg 0))).reg 9 = 2 ∨
      (X.set_flags (i16val (X.reg 0))).reg 9 = 4) := by
  rw [VM.set_flags_eq]
  constructor
  · rw [VM.reg_reg_set_self, VM.reg_reg_set_ne _ _ _ _ (by omega : (0 : Nat) ≠ 9)]
  · rw [VM.reg_reg_set_self]
    unfold flagBitsOf
    split_ifs <;> simp

/-- C4: after any successful flag-setting instruction (ADD, AND, LD, LDI, LDR,
LEA, NOT, and the Getc/In traps) the condition register holds exactly one of
the encodings 4 (Negative), 2 (Zero), 1 (Positive) — never the Unset encoding
0 — and it is the classification of the signed 16-bit interpretation of the
value stored in the instruction's result register. -/
theorem flags_after_flag_setting : ∀ (s : VM) (op : Opcode) (s1 : VM),
    op.setsFlags = true → op.resultReg ≤ 7 → s.execute op = .ok s1 →
    s1.reg 9 = flagBitsOf (i16val (s1.reg op.resultReg)) ∧
    (s1.reg 9 = 1 ∨ s1.reg 9 = 2 ∨ s1.reg 9 = 4) := by
  intro s op s1 hsf hdr hexec
  cases op with
  | ADD dr sr1 sr2 =>
    have h9 : dr ≠ 9 := by
      simp only [Opcode.resultReg] at hdr
      omega
    cases sr2 with
    | Reg r2 =>
      simp only [VM.execute] at hexec
      cases hexec
      simpa only [Opcode.resultReg] using VM_flags_core s dr _ h9
    | Immediate v =>
      simp only [VM.execute] at hexec
      cases hexec
      simpa only [Opcode.resultReg] using VM_flags_core s dr _ h9
  | AND dr sr1 sr2 =>
    have h9 : dr ≠ 9 := by
      simp only [Opcode.resultReg] at hdr
      omega
    cases sr2 with
    | Reg r2 =>
      simp only [VM.execute] at hexec
      cases hexec
      simpa only [Opcode.resultReg] using VM_flags_core s dr _ h9
    | Immediate v =>
      simp only [VM.execute] at hexec
      cases hexec
      simpa only [Opcode.resultReg] using VM_flags_core s dr _ h9
  | BR n z p offset => simp [Opcode.setsFlags] at hsf
  | JMP base_r => simp [Opcode.setsFlags] at hsf
  | RET => simp [Opcode.setsFlags] at hsf
  | JSR offset => simp [Opcode.setsFlags] at hsf
  | JSRR base_r => simp [Opcode.setsFlags] at hsf
  | LD dr offset =>
    have h9 : dr ≠ 9 := by
      simp only [Opcode.resultReg] at hdr
      omega
    cases hread : s.read_with_offset offset with
    | error e =>
      simp only [VM.execute, hread] at hexec
      exact Except.noConfusion hexec
    | ok pr =>
      obtain ⟨s2, res⟩ := pr
      simp only [VM.execute, hread] at hexec
      cases hexec
      simpa only [Opcode.resultReg] using VM_flags_core s2 dr _ h9
  | LDI dr offset =>
    have h9 : dr ≠ 9 := by
      simp only [Opcode.resultReg] at hdr
      omega
    cases hread : s.read_with_offset offset with
    | error e =>
      simp only [VM.execute, hread] at hexec
      exact Except.noConfusion hexec
    | ok pr =>
      obtain ⟨s2, dir⟩ := pr
      cases hread2 : s2.read dir with
      | error e =>
        simp only [VM.execute, hread, hread2] at hexec
        exact Except.noConfusion hexec
      | ok pr2 =>
        obtain ⟨s3, res⟩ := pr2
        simp only [VM.execute, hread, hread2] at hexec
        cases hexec
        simpa only [Opcode.resultReg] using VM_flags_core s3 dr _ h9
  | LDR dr base_r offset =>
    have h9 : dr ≠ 9 := by
      simp only [Opcode.resultReg] at hdr
      omega
    cases hread : s.read (i16_as_usize (i16_wrapping_add (i16val (s.reg base_r)) offset)) with
    | error e =>
      simp only [VM.execute, hread] at hexec
      exact Except.noConfusion hexec
    | ok pr =>
      obtain ⟨s2, res⟩ := pr
      simp only [VM.execute, hread] at hexec
      cases hexec
      simpa only [Opcode.resultReg] using VM_flags_core s2 dr _ h9
  | LEA dr offset =>
    have h9 : dr ≠ 9 := by
      simp only [Opcode.resultReg] at hdr
      omega
    simp only [VM.execute] at hexec
    cases hexec
    simpa only [Opcode.resultReg] using VM_flags_core s dr _ h9
  | NOT dr sr =>
    have h9 : dr ≠ 9 := by
      simp only [Opcode.resultReg] at hdr
      omega
    simp only [VM.execute] at hexec
    cases hexec
    simpa only [Opcode.resultReg] using VM_flags_core s dr _ h9
  | RTI => simp [Opcode.setsFlags] at hsf
  | ST sr offset => simp [Opcode.setsFlags] at hsf
  | STI sr offset => simp [Opcode.setsFlags] at hsf
  | STR sr base_r offset => simp [Opcode.setsFlags] at hsf
  | TRAP tc =>
    cases tc with
    | Getc =>
      cases hin : s.input with
      | nil =>
        simp only [VM.execute, VM.handle_trap_code, VM.reg_set_input, hin] at hexec
        exact Except.noConfusion hexec
      | cons b rest =>
        simp only [VM.execute, VM.handle_trap_code, VM.reg_set_input, hin] at hexec
        cases hexec
        simpa only [Opcode.resultReg] using VM_flags_core0 _
    | In =>
      cases hin : s.input with
      | nil =>
        simp only [VM.execute, VM.handle_trap_code, VM.reg_set_input, hin] at hexec
        exact Except.noConfusion hexec
      | cons b rest =>
        simp only [VM.execute, VM.handle_trap_code, VM.reg_set_input, hin] at hexec
        cases hexec
        simpa only [Opcode.resultReg] using VM_flags_core0 _
    | Out => simp [Opcode.setsFlags] at hsf
    | Puts => simp [Opcode.setsFlags] at hsf
    | Putsp => simp [Opcode.setsFlags] at hsf
    | Halt => simp [Opcode.setsFlags] at hsf
  | RESERVED => simp [Opcode.setsFlags] at hsf

/-- C4 witness: ADD producing result 0 sets flag encoding 2 (Zero); ADD with
immediate -5 on a zero register produces result 0xFFFB and flag encoding 4
(Negative); ADD producing 5 sets flag encoding 1 (Positive). -/
theorem flags_after_flag_setting_witness :
    (∃ s1, (mkVM zeroFn zeroFn []).execute (.ADD 0 1 (.Reg 2)) = .ok s1 ∧
      s1.reg 9 = 2) ∧
    (∃ s2, (mkVM zeroFn zeroFn []).execute (.ADD 0 1 (.Immediate (-5))) = .ok s2 ∧
      s2.reg 0 = 0xFFFB ∧ s2.reg 9 = 4) ∧
    (∃ s3, (mkVM (upd zeroFn 1 5) zeroFn []).execute (.ADD 0 1 (.Reg 2)) = .ok s3 ∧
      s3.reg 9 = 1) := by
  refine ⟨?_, ?_, ?_⟩
  · obtain ⟨h1, -⟩ := flags_after_flag_setting (mkVM zeroFn zeroFn [])
      (.ADD 0 1 (.Reg 2)) _ (by decide) (by decide) rfl
    refine ⟨_, rfl, ?_⟩
    rw [h1]
    decide
  · obtain ⟨h1, -⟩ := flags_after_flag_setting (mkVM zeroFn zeroFn [])
      (.ADD 0 1 (.Immediate (-5))) _ (by decide) (by decide) rfl
    refine ⟨_, rfl, by decide, ?_⟩
    rw [h1]
    decide
  · obtain ⟨h1, -⟩ := flags_after_flag_setting (mkVM (upd zeroFn 1 5) zeroFn [])
      (.ADD 0 1 (.Reg 2)) _ (by decide) (by decide) rfl
    refine ⟨_, rfl, ?_⟩
    rw [h1]
    decide

/-! ### C8 -/

theorem join_u8_eq (hi lo : Nat) (h : lo < 256) : join_u8 hi lo = 256 * hi + lo := by
  unfold join_u8
  apply Nat.eq_of_testBit_eq
  intro i
  rw [Nat.testBit_or, Nat.testBit_shiftLeft]
  have h2 : 256 * hi + lo = 2 ^ 8 * hi + lo := by norm_num
  rw [h2, Nat.testBit_mul_pow_two_add hi (by omega : lo < 2 ^ 8)]
  by_cases hlt : i < 8
  · simp [hlt, Nat.not_le.mpr hlt]
  · have hle : 8 ≤ i := Nat.le_of_not_lt hlt
    have h256 : (256 : Nat) ≤ 2 ^ i := by
      simpa using Nat.pow_le_pow_right (show 0 < 2 by norm_num) hle
    have hlo : lo.testBit i = false :=
      Nat.testBit_lt_two_pow (Nat.lt_of_lt_of_le h h256)
    simp [hlt, hle, hlo]

theorem loadLoop_spec : ∀ (fuel : Nat) (data : List Nat) (data_i : Nat),
    data.length - data_i = fuel → 2 ∣ fuel → ∀ (mem : Nat → Nat) (mem_i : Nat),
    ∃ mem2, loadLoop data mem mem_i data_i = some mem2 ∧
      (∀ a, a < mem_i ∨ mem_i + min (fuel / 2) (65535 - mem_i) ≤ a → mem2 a = mem a) ∧
      (∀ k, k < min (fuel / 2) (65535 - mem_i) →
        mem2 (mem_i + k) =
          join_u8 (data.getD (data_i + 2 * k) 0) (data.getD (data_i + 2 * k + 1) 0)) := by
  intro fuel
  induction fuel using Nat.strong_induction_on with
  | _ fuel IH =>
    intro data data_i hfuel hdvd mem mem_i
    by_cases hcond : mem_i < 65535 ∧ data_i < data.length
    · obtain ⟨c, hc⟩ := hdvd
      have hc1 : 1 ≤ c := by omega
      have hlen2 : data_i + 1 < data.length := by omega
      have hsome : data[data_i + 1]? = some (data.getD (data_i + 1) 0) := by
        rw [List.getElem?_eq_getElem hlen2, List.getD_eq_getElem?_getD,
          List.getElem?_eq_getElem hlen2]
        rfl
      have hstep : loadLoop data mem mem_i data_i =
          loadLoop data
            (upd mem mem_i (join_u8 (data.getD data_i 0) (data.getD (data_i + 1) 0)))
            (mem_i + 1) (data_i + 2) := by
        rw [loadLoop, dif_pos hcond, hsome]
      obtain ⟨mem2, hload, hfix, hcells⟩ := IH (fuel - 2) (by omega) data (data_i + 2)
        (by omega) ⟨c - 1, by omega⟩
        (upd mem mem_i (join_u8 (data.getD data_i 0) (data.getD (data_i + 1) 0))) (mem_i + 1)
      have hcnt : min (fuel / 2) (65535 - mem_i) =
          min ((fuel - 2) / 2) (65535 - (mem_i + 1)) + 1 := by omega
      refine ⟨mem2, by rw [hstep]; exact hload, ?_, ?_⟩
      · intro a ha
        rw [hfix a (by omega)]
        exact upd_ne _ _ _ _ (by omega)
      · intro k hk
        rcases Nat.eq_zero_or_pos k with rfl | hkpos
        · simp only [Nat.add_zero, Nat.mul_zero]
          rw [hfix mem_i (Or.inl (by omega)), upd_self]
        · have e1 : mem_i + k = (mem_i + 1) + (k - 1) := by omega
          rw [e1, hcells (k - 1) (by omega)]
          have e2 : data_i + 2 + 2 * (k - 1) = data_i + 2 * k := by omega
          rw [e2]
    · refine ⟨mem, ?_, ?_, ?_⟩
      · rw [loadLoop, dif_neg hcond]
      · intro a ha
        rfl
      · intro k hk
        exfalso
        omega

/-- C8: loading a program image whose first two bytes are the big-endian
origin and whose remaining bytes form big-endian pairs places each pair as one
word into consecutive cells from the origin, stopping at end of input or just
before the last address; every cell below the origin, and every cell past the
loaded region, stays zero. -/
theorem image_load_characterization : ∀ (b0 b1 : Nat) (rest : List Nat),
    b0 < 256 → b1 < 256 → 2 ∣ rest.length →
    join_u8 b0 b1 = 256 * b0 + b1 ∧
    ∃ mem2, read_data_into_memory (b0 :: b1 :: rest) (fun _ => 0) = some mem2 ∧
      (∀ a, a < join_u8 b0 b1 → mem2 a = 0) ∧
      (∀ k, k < min (rest.length / 2) (65535 - join_u8 b0 b1) →
        mem2 (join_u8 b0 b1 + k) =
          join_u8 (rest.getD (2 * k) 0) (rest.getD (2 * k + 1) 0)) ∧
      (∀ a, join_u8 b0 b1 + min (rest.length / 2) (65535 - join_u8 b0 b1) ≤ a →
        mem2 a = 0) := by
  intro b0 b1 rest hb0 hb1 hdvd
  refine ⟨join_u8_eq b0 b1 hb1, ?_⟩
  have hlen : (b0 :: b1 :: rest).length - 2 = rest.length := by simp
  obtain ⟨mem2, hload, hfix, hcells⟩ := loadLoop_spec rest.length (b0 :: b1 :: rest) 2
    hlen hdvd (fun _ => 0) (join_u8 b0 b1)
  refine ⟨mem2, hload, ?_, ?_, ?_⟩
  · intro a ha
    rw [hfix a (Or.inl ha)]
  · intro k hk
    rw [hcells k hk]
    have e1 : (2 : Nat) + 2 * k = 2 * k + 1 + 1 := by omega
    rw [e1]
    simp only [List.getD_cons_succ]
  · intro a ha
    rw [hfix a (Or.inr ha)]

/-- C8 witness: the byte sequence [0x30, 0x00, 0xCA, 0xFE, 0xBA, 0xBE] loads
0xCAFE at 0x3000 and 0xBABE at 0x3001, and the cells 0x2FFF (below the
origin) and 0x3002 (past the loaded words) stay zero. -/
theorem image_load_characterization_witness :
    ∃ mem2, read_data_into_memory [0x30, 0x00, 0xCA, 0xFE, 0xBA, 0xBE] (fun _ => 0) =
        some mem2 ∧
      mem2 0x3000 = 0xCAFE ∧ mem2 0x3001 = 0xBABE ∧ mem2 0x2FFF = 0 ∧ mem2 0x3002 = 0 := by
  obtain ⟨hjoin, mem2, hload, hlow, hcells, hhigh⟩ :=
    image_load_characterization 0x30 0x00 [0xCA, 0xFE, 0xBA, 0xBE] (by norm_num) (by norm_num)
      (by norm_num)
  refine ⟨mem2, hload, ?_, ?_, ?_, ?_⟩
  · have h := hcells 0 (by decide)
    have e : join_u8 0x30 0x00 + 0 = 0x3000 := by decide
    have e2 : join_u8 ([0xCA, 0xFE, 0xBA, 0xBE].getD (2 * 0) 0)
        ([0xCA, 0xFE, 0xBA, 0xBE].getD (2 * 0 + 1) 0) = 0xCAFE := by decide
    rw [e, e2] at h
    exact h
  · have h := hcells 1 (by decide)
    have e : join_u8 0x30 0x00 + 1 = 0x3001 := by decide
    have e2 : join_u8 ([0xCA, 0xFE, 0xBA, 0xBE].getD (2 * 1) 0)
        ([0xCA, 0xFE, 0xBA, 0xBE].getD (2 * 1 + 1) 0) = 0xBABE := by decide
    rw [e, e2] at h
    exact h
  · exact hlow 0x2FFF (by decide)
  · exact hhigh 0x3002 (by decide)
